import Mathlib

/-!
# Verification of the crypto_dashboard account-state core

Shallow embedding of the cache-mutation core of the `crypto_dashboard`
repository (`src/crypto_dashboard/utils/exchange/balance_manager.py`,
`order_manager.py`, `price_manager.py`, `exchange_utils.py`, and
`exchange_coordinator.py`), together with theorems settling the spec
claims about it.

Modelling conventions:
* Python `Decimal` values are modelled as exact rationals (`ℚ`).  All
  quantities appearing in the verified operations stay well within the
  28-significant-digit default `Decimal` context, where `Decimal`
  arithmetic coincides with exact rational arithmetic.
* Python `dict` caches are modelled as association lists with at most
  one binding per key (`Cache`); `Cache.insert` overwrites in place and
  `Cache.erase` models `del`.
* `None` becomes `Option.none`; fields that the code reads with
  `dict.get(key)` are `Option`-typed in the event structures.
* Methods that broadcast messages or spawn tasks are modelled as pure
  functions returning the new cache together with the list of emitted
  messages / scheduled financial-update tasks, in program order.
-/

set_option autoImplicit false

namespace CryptoDashboard

/-- Association-list model of a Python `dict` keyed by strings. -/
abbrev Cache (α : Type) := List (String × α)

/-- `cache.get(k)` — first binding for `k`, if any. -/
def Cache.find {α : Type} (c : Cache α) (k : String) : Option α :=
  match c with
  | [] => none
  | p :: rest => if p.1 = k then some p.2 else Cache.find rest k

/-- `cache[k] = v` — overwrite the binding for `k`, or append it. -/
def Cache.insert {α : Type} (c : Cache α) (k : String) (v : α) : Cache α :=
  match c with
  | [] => [(k, v)]
  | p :: rest => if p.1 = k then (k, v) :: rest else p :: Cache.insert rest k v

/-- `del cache[k]` — remove every binding for `k`. -/
def Cache.erase {α : Type} (c : Cache α) (k : String) : Cache α :=
  match c with
  | [] => []
  | p :: rest => if p.1 = k then Cache.erase rest k else p :: Cache.erase rest k

/-- `cache.keys()`. -/
def Cache.keys {α : Type} (c : Cache α) : List String := c.map Prod.fst

/-- One asset record of `BalanceManager.balances_cache`. -/
structure BalanceRecord where
  free : ℚ
  locked : ℚ
  total_amount : ℚ
  price : ℚ
  avg_buy_price : Option ℚ
  realised_pnl : Option ℚ
deriving Repr, DecidableEq

/-- Messages broadcast to observers (and the watcher-restart request task),
as emitted by the balance/price managers. -/
inductive Msg where
  | portfolioUpdate (asset : String) (data : BalanceRecord)
  | removeHolding (symbol : String)
  | priceUpdate (symbol : String) (price : ℚ)
  | restartWatcherRequest
deriving Repr, DecidableEq

/-- Is this message a full portfolio/balance view (as opposed to a
price-only message)? -/
def Msg.isPortfolioUpdate : Msg → Bool
  | Msg.portfolioUpdate _ _ => true
  | _ => false

/-- `BalanceManager.handle_zero_balance` (balance_manager.py:115):
a followed asset is kept with zeroed quantities (price / avg price / PnL
untouched) and a portfolio update is broadcast; a non-followed asset is
deleted and a `remove_holding` message is broadcast.  Both branches then
schedule a tracked-set recomputation. -/
def handle_zero_balance (follows : List String) (quote_currency : String)
    (cache : Cache BalanceRecord) (asset : String) :
    Cache BalanceRecord × List Msg :=
  match Cache.find cache asset with
  | none => (cache, [])
  | some b =>
    if asset ∈ follows then
      let b' := { b with free := 0, locked := 0, total_amount := 0 }
      (Cache.insert cache asset b',
        [Msg.portfolioUpdate asset b', Msg.restartWatcherRequest])
    else
      (Cache.erase cache asset,
        [Msg.removeHolding (asset ++ "/" ++ quote_currency),
         Msg.restartWatcherRequest])

/-- `BalanceManager.update_price` (balance_manager.py:164): overwrite the
cached price only if the asset is cached and the price is positive. -/
def update_price (cache : Cache BalanceRecord) (asset : String) (price : ℚ) :
    Cache BalanceRecord :=
  match Cache.find cache asset with
  | some b => if 0 < price then Cache.insert cache asset { b with price := price } else cache
  | none => cache

/-- `BalanceManager.update_average_price_on_buy` (balance_manager.py:169):
untracked asset or `None` average ⇒ no-op; otherwise recompute the
weighted average (falling back to the fill price when the stored average
or total is non-positive) and broadcast the updated record.  The
function does not touch `total_amount`. -/
def update_average_price_on_buy (cache : Cache BalanceRecord) (asset : String)
    (filled_amount average_price : ℚ) : Cache BalanceRecord × List Msg :=
  match Cache.find cache asset with
  | none => (cache, [])
  | some b =>
    match b.avg_buy_price with
    | none => (cache, [])
    | some old_avg_price =>
      let old_total_amount := b.total_amount
      let new_avg_price :=
        if old_avg_price ≤ 0 ∨ old_total_amount ≤ 0 then average_price
        else
          let new_total_amount := old_total_amount + filled_amount
          if 0 < new_total_amount then
            (old_total_amount * old_avg_price + filled_amount * average_price) /
              new_total_amount
          else average_price
      let b' := { b with avg_buy_price := some new_avg_price }
      (Cache.insert cache asset b', [Msg.portfolioUpdate asset b'])

/-- `BalanceManager.update_realized_pnl_on_sell` (balance_manager.py:201):
untracked asset, `None` average, or non-positive average ⇒ no-op with a
warning; otherwise accumulate `(price - avg) * filled` into
`realised_pnl` (initialising it if `None`) and broadcast.  The average
buy price itself is not modified. -/
def update_realized_pnl_on_sell (cache : Cache BalanceRecord) (asset : String)
    (filled_amount average_price : ℚ) : Cache BalanceRecord × List Msg :=
  match Cache.find cache asset with
  | none => (cache, [])
  | some b =>
    match b.avg_buy_price with
    | none => (cache, [])
    | some avg_buy_price =>
      if avg_buy_price ≤ 0 then (cache, [])
      else
        let profit := (average_price - avg_buy_price) * filled_amount
        let new_pnl :=
          match b.realised_pnl with
          | none => profit
          | some p => p + profit
        let b' := { b with realised_pnl := some new_pnl }
        (Cache.insert cache asset b', [Msg.portfolioUpdate asset b'])

/-- `PriceManager._update_asset_price` (price_manager.py:49): non-positive
price ⇒ nothing happens; otherwise a minimal `price_update` message is
always broadcast, and when the asset is held the cached price is also
updated via `update_price`. -/
def update_asset_price (balances : Cache BalanceRecord) (asset symbol : String)
    (price : ℚ) : Cache BalanceRecord × List Msg :=
  if price ≤ 0 then (balances, [])
  else
    let msgs := [Msg.priceUpdate symbol price]
    let balances' :=
      if (Cache.find balances asset).isSome then update_price balances asset price
      else balances
    (balances', msgs)

/-- A unified order event as delivered by `watch_orders` (fields read by
`OrderManager.update_order`; `Option` marks fields read with `.get`).
Stop-order bookkeeping (`was_stop_order`, `is_triggered`) and the log
payload are elided: they affect neither the cache keys nor the
fill-delta path. -/
structure OrderEvent where
  id : Option String
  symbol : String
  side : Option String
  price : Option ℚ
  stopPrice : Option ℚ
  amount : Option ℚ
  filled : ℚ
  average : Option ℚ
  status : Option String
deriving Repr, DecidableEq

/-- One record of `OrderManager.orders_cache`. -/
structure OrderRecord where
  symbol : String
  side : Option String
  price : ℚ
  stop_price : Option ℚ
  amount : ℚ
  filled : ℚ
  value : ℚ
  status : Option String
deriving Repr, DecidableEq

/-- Python's `x or default` on an optional `Decimal`: `None` and `0` both
fall through to the default. -/
def pyOr (a : Option ℚ) (dflt : ℚ) : ℚ :=
  match a with
  | some x => if x = 0 then dflt else x
  | none => dflt

/-- The `_handle_filled_order` task scheduled by `update_order` for a
positive fill delta — the single trigger of cost-basis/PnL updates. -/
structure FillEvent where
  side : Option String
  symbol : String
  tradeAmount : ℚ
  tradePrice : ℚ
deriving Repr, DecidableEq

/-- `old_order.get('filled', '0')` with `old_order = orders_cache.get(id, {})`:
the previously cached cumulative fill, `0` when no record exists. -/
def old_filled_of (cache : Cache OrderRecord) (order_id : String) : ℚ :=
  match Cache.find cache order_id with
  | some o => o.filled
  | none => 0

/-- `OrderManager.update_order` (order_manager.py:131): compute the fill
delta against the cached record, schedule a `_handle_filled_order` task
iff the delta is positive, then either delete the record (status
`closed` / `canceled`) or overwrite it (all other statuses).  Returns
the new cache and the scheduled fill tasks. -/
def update_order (cache : Cache OrderRecord) (ev : OrderEvent) :
    Cache OrderRecord × List FillEvent :=
  match ev.id with
  | none => (cache, [])
  | some order_id =>
    let old_filled := old_filled_of cache order_id
    let new_filled := ev.filled
    let trade_amount := new_filled - old_filled
    let fills :=
      if 0 < trade_amount then
        [{ side := ev.side, symbol := ev.symbol, tradeAmount := trade_amount,
           tradePrice := pyOr ev.average (pyOr ev.price 0) : FillEvent }]
      else []
    let cache' :=
      if ev.status = some "closed" ∨ ev.status = some "canceled" then
        Cache.erase cache order_id
      else
        let price := pyOr ev.price 0
        let amount := pyOr ev.amount 0
        Cache.insert cache order_id
          { symbol := ev.symbol, side := ev.side, price := price,
            stop_price := ev.stopPrice, amount := amount, filled := new_filled,
            value := price * (amount - new_filled), status := ev.status }
    (cache', fills)

/-- `OrderManager.get_order_asset_names` (order_manager.py): base assets of
all orders with a non-empty symbol. -/
def get_order_asset_names (orders : Cache OrderRecord) : Finset String :=
  ((orders.filter (fun p => p.2.symbol != "")).map
    (fun p => (p.2.symbol.splitOn "/").headD "")).toFinset

/-- One closed order of the trade history consumed by
`calculate_average_buy_price` (fields read with `.get`, defaulting as in
the code: missing/invalid timestamp ↦ 0, missing filled/price ↦ 0). -/
structure Trade where
  timestamp : Int
  side : Option String
  filled : ℚ
  price : ℚ
deriving Repr, DecidableEq

instance : Inhabited Trade := ⟨⟨0, none, 0, 0⟩⟩

/-- Stable insertion of a trade into a timestamp-sorted list (the earlier
element stays in front of equal timestamps, like Python's stable
`sorted`). -/
def insortByTimestamp (x : Trade) : List Trade → List Trade
  | [] => [x]
  | y :: ys =>
    if x.timestamp ≤ y.timestamp then x :: y :: ys else y :: insortByTimestamp x ys

/-- `sorted(trade_history, key=get_timestamp)` — stable sort by timestamp. -/
def sortByTimestamp : List Trade → List Trade
  | [] => []
  | x :: xs => insortByTimestamp x (sortByTimestamp xs)

/-- The signed quantity a trade contributes to the backward walk of
`calculate_average_buy_price`: `+filled` for sells, `-filled` for buys,
`0` for anything else. -/
def signedQty (t : Trade) : ℚ :=
  if t.side = some "sell" then t.filled
  else if t.side = some "buy" then -t.filled
  else 0

/-- The backward loop `for i in range(len(sorted_trades)-1, -1, -1)` of
`calculate_average_buy_price`: the counter is `i + 1`, `running` is the
running amount; return the first index (from the end) where the running
amount hits zero. -/
def findStartGo (ts : List Trade) : ℕ → ℚ → Option ℕ
  | 0, _ => none
  | i + 1, running =>
    let r := running + signedQty (ts.getD i default)
    if r = 0 then some i else findStartGo ts i r

/-- The backward walk of `calculate_average_buy_price`, started at the
most recent trade with the target current amount. -/
def findStartIndex (ts : List Trade) (current_amount : ℚ) : Option ℕ :=
  findStartGo ts ts.length current_amount

/-- Accumulator of the forward replay loop of
`calculate_average_buy_price`. -/
structure ReplayAcc where
  total_cost : ℚ
  total_amount_bought : ℚ
  realised_pnl : ℚ
deriving Repr, DecidableEq

/-- The forward replay loop `for i in range(start_index, len(sorted_trades))`
of `calculate_average_buy_price`: buys accumulate cost and quantity;
sells realize PnL against the current average and consume cost and
quantity proportionally (skipped when the current average is not
positive). -/
def replayFills : List Trade → ReplayAcc → ReplayAcc
  | [], acc => acc
  | t :: rest, acc =>
    if t.side = some "buy" then
      replayFills rest
        { acc with total_cost := acc.total_cost + t.filled * t.price,
                   total_amount_bought := acc.total_amount_bought + t.filled }
    else if t.side = some "sell" then
      let avg_buy_price :=
        if 0 < acc.total_amount_bought then acc.total_cost / acc.total_amount_bought
        else 0
      if 0 < avg_buy_price then
        replayFills rest
          { total_cost := acc.total_cost - avg_buy_price * t.filled,
            total_amount_bought := acc.total_amount_bought - t.filled,
            realised_pnl := acc.realised_pnl + (t.price - avg_buy_price) * t.filled }
      else replayFills rest acc
    else replayFills rest acc

/-- `calculate_average_buy_price` (exchange_utils.py:9), with the trade
history fetched by `fetch_closed_orders` passed as an argument.  Returns
`(average buy price | none, realized PnL | none)`. -/
def calculate_average_buy_price (trade_history : List Trade)
    (asset quote_currency : String) (current_amount : ℚ) :
    Option ℚ × Option ℚ :=
  if asset = quote_currency ∨ current_amount ≤ 0 then (none, none)
  else if trade_history = [] then (none, none)
  else
    let sorted_trades := sortByTimestamp trade_history
    match findStartIndex sorted_trades current_amount with
    | none => (none, none)
    | some start_index =>
      let acc := replayFills (sorted_trades.drop start_index) ⟨0, 0, 0⟩
      if 0 < acc.total_amount_bought then
        (some (acc.total_cost / acc.total_amount_bought), some acc.realised_pnl)
      else (none, some acc.realised_pnl)

/-- The coordinator state read by
`ExchangeCoordinator.update_tracked_assets_and_restart_watcher`. -/
structure CoordinatorState where
  balances : Cache BalanceRecord
  orders : Cache OrderRecord
  follows : List String
  quote_currency : String
  testnet : Bool
  whitelist : List String
  tracked_assets : Finset String
deriving DecidableEq

/-- The tracked-asset set computed inside
`update_tracked_assets_and_restart_watcher` (exchange_coordinator.py:108):
`follows ∪ balance-cache keys ∪ order assets ∪ {quote}`, intersected
with `whitelist ∪ {quote}` in testnet (sandbox) mode. -/
def compute_tracked_assets (st : CoordinatorState) : Finset String :=
  let balance_assets := (Cache.keys st.balances).toFinset
  let order_assets := get_order_asset_names st.orders
  let base := st.follows.toFinset ∪ balance_assets ∪ order_assets ∪ {st.quote_currency}
  if st.testnet then base ∩ (st.whitelist.toFinset ∪ {st.quote_currency}) else base

/-- Side effects of `update_tracked_assets_and_restart_watcher`, in
program order. -/
inductive CoordEffect where
  | priceBackfill (added : Finset String)
  | cancelOldWatcher
  | startWatcher
deriving DecidableEq

/-- `ExchangeCoordinator.update_tracked_assets_and_restart_watcher`
(exchange_coordinator.py:108), as a pure state transformer under the
restart mutex: if the freshly computed set equals the stored one (and
this is not the initial call) it returns with no effect at all;
otherwise it stores the new set, backfills prices for added assets,
cancels a running watcher task, and starts a new one. -/
def update_tracked_assets_and_restart_watcher (st : CoordinatorState)
    (is_initial old_task_running : Bool) : CoordinatorState × List CoordEffect :=
  let new_tracked_set := compute_tracked_assets st
  if is_initial = false ∧ new_tracked_set = st.tracked_assets then (st, [])
  else
    let added_assets := new_tracked_set \ st.tracked_assets
    let effects :=
      (if added_assets ≠ ∅ then [CoordEffect.priceBackfill added_assets] else []) ++
      (if old_task_running then [CoordEffect.cancelOldWatcher] else []) ++
      [CoordEffect.startWatcher]
    ({ st with tracked_assets := new_tracked_set }, effects)

/-- Atomic steps of the body of
`update_tracked_assets_and_restart_watcher`, used to state ordering
properties of the restart protocol.  `scheduleNewTask` is
`asyncio.create_task(...)`: it schedules the coroutine on the event loop
without running it; the code contains no statement that awaits a
confirmation that the new task has begun executing, which
`confirmNewTaskStarted` would model. -/
inductive WatcherAction where
  | computeNewSet
  | backfillAddedPrices
  | cancelOldTask
  | awaitOldTaskTermination
  | scheduleNewTask
  | confirmNewTaskStarted
  | releaseLock
deriving Repr, DecidableEq

/-- The sequence of atomic steps executed by one (non-initial) run of
`update_tracked_assets_and_restart_watcher` while holding the restart
mutex, as a function of whether the computed set changed, whether an old
watcher task is still running, and whether any asset was added. -/
def watcher_restart_trace (set_changed old_task_running has_added : Bool) :
    List WatcherAction :=
  [WatcherAction.computeNewSet] ++
  (if set_changed = false then [WatcherAction.releaseLock]
   else
     (if has_added then [WatcherAction.backfillAddedPrices] else []) ++
     (if old_task_running then
        [WatcherAction.cancelOldTask, WatcherAction.awaitOldTaskTermination]
      else []) ++
     [WatcherAction.scheduleNewTask, WatcherAction.releaseLock])

/-! ### Concrete sample data used by witnesses and counterexamples -/

/-- A held asset with a known average buy price (`avg=100, total=1`). -/
def sampleHolding : BalanceRecord :=
  { free := 1, locked := 0, total_amount := 1, price := 0,
    avg_buy_price := some 100, realised_pnl := none }

/-- A held asset whose average buy price is unknown (`None`), as after a
snapshot with no usable trade history. -/
def sampleNullAvgHolding : BalanceRecord :=
  { free := 1, locked := 0, total_amount := 1, price := 0,
    avg_buy_price := none, realised_pnl := none }

/-- A held asset whose cached average buy price is the non-`None` value
`0` (total `1`). -/
def sampleZeroAvgHolding : BalanceRecord :=
  { free := 1, locked := 0, total_amount := 1, price := 0,
    avg_buy_price := some 0, realised_pnl := none }

/-- A one-asset balance cache holding `sampleHolding` under `"BTC"`. -/
def sampleBalances : Cache BalanceRecord := [("BTC", sampleHolding)]

/-- An order event with cumulative fill `3` and non-terminal status
`open`. -/
def openFill3Event : OrderEvent :=
  { id := some "1", symbol := "BTC/USDT", side := some "buy",
    price := some 50000, stopPrice := none, amount := some 3, filled := 3,
    average := some 50000, status := some "open" }

/-- The same fill-3 event with terminal status `closed`. -/
def closedFill3Event : OrderEvent :=
  { id := some "1", symbol := "BTC/USDT", side := some "buy",
    price := some 50000, stopPrice := none, amount := some 3, filled := 3,
    average := some 50000, status := some "closed" }

/-- An order event with status `rejected` (unified ccxt status). -/
def rejectedEvent : OrderEvent :=
  { id := some "1", symbol := "BTC/USDT", side := some "buy",
    price := some 50000, stopPrice := none, amount := some 3, filled := 0,
    average := none, status := some "rejected" }

/-- A cached open order under id `"1"`. -/
def sampleOpenOrder : OrderRecord :=
  { symbol := "BTC/USDT", side := some "buy", price := 50000,
    stop_price := none, amount := 3, filled := 0, value := 150000,
    status := some "open" }

/-- The spec's reference trade history: buy 2@100, buy 1@130, sell 1@150
(chronological timestamps). -/
def sampleTradeHistory : List Trade :=
  [⟨1, some "buy", 2, 100⟩, ⟨2, some "buy", 1, 130⟩, ⟨3, some "sell", 1, 150⟩]

/-- A history that cannot reconstruct a current holding of 2: a single
sell. -/
def irrecoverableHistory : List Trade := [⟨1, some "sell", 1, 100⟩]

/-- A small coordinator state: one held asset, no orders, no follows. -/
def sampleCoordState : CoordinatorState :=
  { balances := sampleBalances, orders := [], follows := [],
    quote_currency := "USDT", testnet := false, whitelist := [],
    tracked_assets := ∅ }

/-- `sampleCoordState` with its tracked set already up to date. -/
def sampleStableCoordState : CoordinatorState :=
  { sampleCoordState with tracked_assets := compute_tracked_assets sampleCoordState }

/-! ### Association-list cache lemmas -/

theorem Cache.find_insert_self {α : Type} (c : Cache α) (k : String) (v : α) :
    Cache.find (Cache.insert c k v) k = some v := by
  induction c with
  | nil => simp [Cache.insert, Cache.find]
  | cons p rest ih =>
    by_cases h : p.1 = k
    · simp [Cache.insert, Cache.find, h]
    · simp [Cache.insert, Cache.find, h, ih]

theorem Cache.find_insert_ne {α : Type} (c : Cache α) (k k' : String) (v : α)
    (h : k' ≠ k) : Cache.find (Cache.insert c k v) k' = Cache.find c k' := by
  have hne : k ≠ k' := Ne.symm h
  induction c with
  | nil => simp [Cache.insert, Cache.find, hne]
  | cons p rest ih =>
    by_cases hp : p.1 = k
    · simp [Cache.insert, Cache.find, hp, hne]
    · simp [Cache.insert, Cache.find, hp, ih]

theorem Cache.find_erase_self {α : Type} (c : Cache α) (k : String) :
    Cache.find (Cache.erase c k) k = none := by
  induction c with
  | nil => simp [Cache.erase, Cache.find]
  | cons p rest ih =>
    by_cases h : p.1 = k
    · simp [Cache.erase, h, ih]
    · simp [Cache.erase, Cache.find, h, ih]

theorem Cache.find_erase_ne {α : Type} (c : Cache α) (k k' : String)
    (h : k' ≠ k) : Cache.find (Cache.erase c k) k' = Cache.find c k' := by
  induction c with
  | nil => simp [Cache.erase]
  | cons p rest ih =>
    by_cases hp : p.1 = k
    · simp [Cache.erase, Cache.find, hp, Ne.symm h, ih]
    · simp [Cache.erase, Cache.find, hp, ih]

/-! ### Backward-walk characterisation for the cost-basis engine -/

/-- Sum of signed quantities of the trades at indices `[a, n)`. -/
def tailSumFrom (ts : List Trade) (a n : ℕ) : ℚ :=
  (((ts.map signedQty).drop a).take (n - a)).sum

theorem tailSumFrom_self (ts : List Trade) (a : ℕ) : tailSumFrom ts a a = 0 := by
  simp [tailSumFrom]

theorem tailSumFrom_succ (ts : List Trade) (a i : ℕ) (ha : a ≤ i)
    (hi : i < ts.length) :
    tailSumFrom ts a (i + 1) = tailSumFrom ts a i + signedQty (ts.getD i default) := by
  have hstep : i + 1 - a = (i - a) + 1 := by omega
  have hidx : ((ts.map signedQty).drop a)[i - a]? = some (signedQty (ts.getD i default)) := by
    rw [List.getElem?_drop, List.getElem?_map]
    have : a + (i - a) = i := by omega
    rw [this, List.getElem?_eq_getElem hi]
    simp [List.getD_eq_getElem?_getD, List.getElem?_eq_getElem hi]
  rw [tailSumFrom, tailSumFrom, hstep, List.take_succ, hidx]
  simp

theorem findStartGo_eq_some (ts : List Trade) :
    ∀ (n : ℕ) (r : ℚ) (j : ℕ), n ≤ ts.length → findStartGo ts n r = some j →
      j < n ∧ r + tailSumFrom ts j n = 0 ∧
      ∀ k, j < k → k < n → r + tailSumFrom ts k n ≠ 0 := by
  intro n
  induction n with
  | zero => intro r j _ h; simp [findStartGo] at h
  | succ i ih =>
    intro r j hn h
    simp only [findStartGo] at h
    by_cases h0 : r + signedQty (ts.getD i default) = 0
    · rw [if_pos h0] at h
      obtain rfl : i = j := by simpa using h
      refine ⟨Nat.lt_succ_self i, ?_, ?_⟩
      · rw [tailSumFrom_succ ts i i le_rfl (by omega), tailSumFrom_self]
        simpa using h0
      · intro k hk1 hk2; omega
    · rw [if_neg h0] at h
      obtain ⟨hj, hsum, hmin⟩ := ih (r + signedQty (ts.getD i default)) j (by omega) h
      refine ⟨by omega, ?_, ?_⟩
      · rw [tailSumFrom_succ ts j i (by omega) (by omega)]
        linarith
      · intro k hk1 hk2
        rcases Nat.lt_succ_iff_lt_or_eq.mp hk2 with hki | rfl
        · rw [tailSumFrom_succ ts k i (by omega) (by omega)]
          intro hcon
          exact hmin k hk1 hki (by linarith)
        · rw [tailSumFrom_succ ts k k le_rfl (by omega), tailSumFrom_self]
          simpa using h0

theorem tailSumFrom_length (ts : List Trade) (j : ℕ) :
    tailSumFrom ts j ts.length = ((ts.drop j).map signedQty).sum := by
  rw [tailSumFrom, List.map_drop, List.take_of_length_le]
  simp

theorem findStartIndex_spec (ts : List Trade) (c : ℚ) (j : ℕ)
    (h : findStartIndex ts c = some j) :
    j < ts.length ∧ c + ((ts.drop j).map signedQty).sum = 0 ∧
      ∀ k, j < k → k < ts.length → c + ((ts.drop k).map signedQty).sum ≠ 0 := by
  obtain ⟨hj, hsum, hmin⟩ := findStartGo_eq_some ts ts.length c j le_rfl h
  refine ⟨hj, ?_, ?_⟩
  · rw [← tailSumFrom_length]; exact hsum
  · intro k hk1 hk2; rw [← tailSumFrom_length]; exact hmin k hk1 hk2

/-- `compute_tracked_assets` does not read the stored tracked set. -/
theorem compute_tracked_assets_update_tracked (st : CoordinatorState)
    (x : Finset String) :
    compute_tracked_assets { st with tracked_assets := x } =
      compute_tracked_assets st := rfl

/-! ### Claim theorems -/

/-- Claim C7 (confirmed): recomputing the tracked set
(balance-cache assets ∪ order assets ∪ followed assets ∪ {quote},
intersected with the whitelist in sandbox mode) when the result equals
the stored tracked set returns without restarting the watcher or any
other side effect; hence a second recomputation with no intervening
cache change yields the identical set and triggers no restart. -/
theorem C7_tracked_set_idempotence :
    (∀ (st : CoordinatorState) (old_task_running : Bool),
        compute_tracked_assets st = st.tracked_assets →
        update_tracked_assets_and_restart_watcher st false old_task_running = (st, [])) ∧
    (∀ (st : CoordinatorState) (b b' : Bool),
        update_tracked_assets_and_restart_watcher
          (update_tracked_assets_and_restart_watcher st false b).1 false b' =
        ((update_tracked_assets_and_restart_watcher st false b).1, [])) := by
  constructor
  · intro st old_task_running h
    simp [update_tracked_assets_and_restart_watcher, h]
  · intro st b b'
    by_cases h : compute_tracked_assets st = st.tracked_assets
    · have h1 : update_tracked_assets_and_restart_watcher st false b = (st, []) := by
        simp [update_tracked_assets_and_restart_watcher, h]
      rw [h1]
      simp [update_tracked_assets_and_restart_watcher, h]
    · have h1 : (update_tracked_assets_and_restart_watcher st false b).1 =
          { st with tracked_assets := compute_tracked_assets st } := by
        simp [update_tracked_assets_and_restart_watcher, h]
      rw [h1]
      simp [update_tracked_assets_and_restart_watcher,
        compute_tracked_assets_update_tracked]

/-- Witness for C7: on a concrete stable state the recomputation is a
complete no-op. -/
theorem C7_tracked_set_idempotence_witness :
    update_tracked_assets_and_restart_watcher sampleStableCoordState false true =
      (sampleStableCoordState, []) :=
  C7_tracked_set_idempotence.1 sampleStableCoordState true rfl

/-- Claim C9 counterexample: in the concrete execution where the tracked
set changed and an old watcher task is running, the protocol's step
sequence contains no confirmation that the new task started before the
mutex is released — the new task is only scheduled
(`asyncio.create_task`), refuting "returns to Stable only after the new
watcher task is confirmed started, not merely scheduled". -/
theorem C9_counterexample :
    watcher_restart_trace true true false =
      [WatcherAction.computeNewSet, WatcherAction.cancelOldTask,
       WatcherAction.awaitOldTaskTermination, WatcherAction.scheduleNewTask,
       WatcherAction.releaseLock] ∧
    WatcherAction.confirmNewTaskStarted ∉ watcher_restart_trace true true false := by
  decide

/-- Claim C9 (amended): when the tracked set changed and an old
price-streaming task is running, the old task is cancelled and its
termination awaited before the new streaming task is scheduled (so no
two price subscriptions ever overlap), and the mutex is released only
after the new task has been scheduled — but the new task is merely
scheduled via `asyncio.create_task`; the protocol never awaits a
confirmation that it actually started. -/
theorem C9_watcher_restart_amended :
    ∀ has_added : Bool,
      ((watcher_restart_trace true true has_added).indexOf
          WatcherAction.cancelOldTask <
        (watcher_restart_trace true true has_added).indexOf
          WatcherAction.awaitOldTaskTermination) ∧
      ((watcher_restart_trace true true has_added).indexOf
          WatcherAction.awaitOldTaskTermination <
        (watcher_restart_trace true true has_added).indexOf
          WatcherAction.scheduleNewTask) ∧
      ((watcher_restart_trace true true has_added).indexOf
          WatcherAction.scheduleNewTask <
        (watcher_restart_trace true true has_added).indexOf
          WatcherAction.releaseLock) ∧
      WatcherAction.confirmNewTaskStarted ∉ watcher_restart_trace true true has_added := by
  intro has_added
  cases has_added <;> decide

/-- Claim C10 (confirmed): a non-positive price tick leaves the balance
cache unchanged and emits no message; a tick for an asset absent from
the balance cache never creates a record; and the cached price of any
held asset is only ever overwritten with a strictly positive value. -/
theorem C10_price_update_invariant :
    ∀ (balances : Cache BalanceRecord) (asset symbol : String) (price : ℚ),
      (price ≤ 0 → update_asset_price balances asset symbol price = (balances, [])) ∧
      (Cache.find balances asset = none →
        (update_asset_price balances asset symbol price).1 = balances) ∧
      (∀ (a : String) (r r' : BalanceRecord), Cache.find balances a = some r →
        Cache.find (update_asset_price balances asset symbol price).1 a = some r' →
        r'.price = r.price ∨ (0 < price ∧ r' = { r with price := price })) := by
  intro balances asset symbol price
  refine ⟨?_, ?_, ?_⟩
  · intro hle
    simp [update_asset_price, hle]
  · intro habs
    by_cases hle : price ≤ 0
    · simp [update_asset_price, hle]
    · simp [update_asset_price, hle, habs]
  · intro a r r' hr hr'
    by_cases hle : price ≤ 0
    · simp only [update_asset_price, if_pos hle] at hr'
      rw [hr] at hr'
      exact Or.inl (by injection hr' with h; rw [← h])
    · by_cases hheld : (Cache.find balances asset).isSome
      · obtain ⟨b, hb⟩ := Option.isSome_iff_exists.mp hheld
        have hpos : 0 < price := lt_of_not_ge hle
        have hres : (update_asset_price balances asset symbol price).1 =
            Cache.insert balances asset { b with price := price } := by
          simp [update_asset_price, hle, hheld, update_price, hb, hpos]
        rw [hres] at hr'
        by_cases ha : a = asset
        · subst ha
          rw [Cache.find_insert_self] at hr'
          rw [hb] at hr
          injection hr with hr
          injection hr' with hr'
          subst hr
          exact Or.inr ⟨hpos, hr'.symm⟩
        · rw [Cache.find_insert_ne _ _ _ _ ha] at hr'
          rw [hr] at hr'
          exact Or.inl (by injection hr' with h; rw [← h])
      · have hres : (update_asset_price balances asset symbol price).1 = balances := by
          simp [update_asset_price, hle, hheld]
        rw [hres] at hr'
        rw [hr] at hr'
        exact Or.inl (by injection hr' with h; rw [← h])

/-- Witness for C10: concrete positive tick on a held asset updates the
cached price; a non-positive tick is a complete no-op. -/
theorem C10_price_update_invariant_witness :
    update_asset_price sampleBalances "BTC" "BTC/USDT" (-1) = (sampleBalances, []) :=
  (C10_price_update_invariant sampleBalances "BTC" "BTC/USDT" (-1)).1 (by norm_num)

/-- Claim C8 counterexample: a positive tick for the held asset `"BTC"`
produces only the minimal price-only message — no full balance-update
(portfolio) message is emitted on the price path, refuting "if the
asset is held, a full balance-update message is produced for
observers". -/
theorem C8_counterexample :
    (update_asset_price sampleBalances "BTC" "BTC/USDT" 100).2 =
      [Msg.priceUpdate "BTC/USDT" 100] ∧
    ((update_asset_price sampleBalances "BTC" "BTC/USDT" 100).2.all
      (fun m => !m.isPortfolioUpdate)) = true := by
  constructor
  · simp [update_asset_price]
    norm_num
  · simp [update_asset_price, Msg.isPortfolioUpdate]
    norm_num

/-- Claim C8 (amended): every positive-price tick for a tracked symbol
produces exactly the minimal price-only message for observers; if the
underlying asset is held, the cached price in its balance record is
additionally updated, and if it is not held the balance cache is left
unchanged (no holdings view is ever emitted on the price path, for held
or unheld assets alike). -/
theorem C8_price_tick_amended :
    ∀ (balances : Cache BalanceRecord) (asset symbol : String) (price : ℚ),
      0 < price →
      ((update_asset_price balances asset symbol price).2 =
        [Msg.priceUpdate symbol price]) ∧
      (∀ b, Cache.find balances asset = some b →
        Cache.find (update_asset_price balances asset symbol price).1 asset =
          some { b with price := price }) ∧
      (Cache.find balances asset = none →
        (update_asset_price balances asset symbol price).1 = balances) := by
  intro balances asset symbol price hpos
  have hle : ¬price ≤ 0 := not_le.mpr hpos
  refine ⟨?_, ?_, ?_⟩
  · simp [update_asset_price, hle]
  · intro b hb
    have hheld : (Cache.find balances asset).isSome := by simp [hb]
    have hres : (update_asset_price balances asset symbol price).1 =
        Cache.insert balances asset { b with price := price } := by
      simp [update_asset_price, hle, hheld, update_price, hb, hpos]
    rw [hres, Cache.find_insert_self]
  · intro habs
    simp [update_asset_price, hle, habs]

/-- Witness for C8 (amended): concrete held-asset tick. -/
theorem C8_price_tick_amended_witness :
    Cache.find (update_asset_price sampleBalances "BTC" "BTC/USDT" 100).1 "BTC" =
      some { sampleHolding with price := 100 } :=
  (C8_price_tick_amended sampleBalances "BTC" "BTC/USDT" 100 (by norm_num)).2.1
    sampleHolding rfl

/-- Claim C4 (confirmed): a sell fill on a cached asset with a `None` or
non-positive average buy price is skipped — the cache, including
`realised_pnl`, is left unchanged and no message is emitted; otherwise
`(fill_price - avg) * filled` is added to `realised_pnl` (initialising
it from `None`) and the average buy price itself is unchanged by the
sale. -/
theorem C4_sell_fill_safety :
    ∀ (cache : Cache BalanceRecord) (asset : String) (b : BalanceRecord)
      (filled_amount average_price : ℚ), Cache.find cache asset = some b →
      (b.avg_buy_price = none →
        update_realized_pnl_on_sell cache asset filled_amount average_price =
          (cache, [])) ∧
      (∀ a, b.avg_buy_price = some a → a ≤ 0 →
        update_realized_pnl_on_sell cache asset filled_amount average_price =
          (cache, [])) ∧
      (∀ a, b.avg_buy_price = some a → 0 < a →
        Cache.find
            (update_realized_pnl_on_sell cache asset filled_amount average_price).1
            asset =
          some { b with
            realised_pnl := some ((b.realised_pnl).getD 0 + (average_price - a) * filled_amount) }) := by
  intro cache asset b filled_amount average_price hb
  refine ⟨?_, ?_, ?_⟩
  · intro hnone
    simp [update_realized_pnl_on_sell, hb, hnone]
  · intro a ha hle
    simp [update_realized_pnl_on_sell, hb, ha, hle]
  · intro a ha hpos
    have hle : ¬a ≤ 0 := not_le.mpr hpos
    cases hpnl : b.realised_pnl with
    | none =>
      simp [update_realized_pnl_on_sell, hb, ha, hle, hpnl, Cache.find_insert_self]
    | some p =>
      simp [update_realized_pnl_on_sell, hb, ha, hle, hpnl, Cache.find_insert_self]

/-- Witness for C4: on the concrete null-average holding the sell fill is
skipped with the cache unchanged; on the known-average holding the PnL
accumulates. -/
theorem C4_sell_fill_safety_witness :
    update_realized_pnl_on_sell [("BTC", sampleNullAvgHolding)] "BTC" 1 20000 =
      ([("BTC", sampleNullAvgHolding)], []) ∧
    Cache.find (update_realized_pnl_on_sell sampleBalances "BTC" 1 150).1 "BTC" =
      some { sampleHolding with realised_pnl := some 50 } := by
  constructor
  · exact (C4_sell_fill_safety [("BTC", sampleNullAvgHolding)] "BTC"
      sampleNullAvgHolding 1 20000 rfl).1 rfl
  · have h := (C4_sell_fill_safety sampleBalances "BTC" sampleHolding 1 150
      rfl).2.2 100 rfl (by norm_num)
    rw [h]
    norm_num [sampleHolding]

/-- Claim C5 (confirmed): when a zero balance is handled for a cached
asset, a followed asset keeps its record with `free`, `locked` and
`total` zeroed while `price`, `average_buy_price` and `realized_pnl`
are preserved; a non-followed asset's record is removed from the cache
and a remove event is emitted. -/
theorem C5_eviction_policy :
    ∀ (follows : List String) (quote_currency : String)
      (cache : Cache BalanceRecord) (asset : String) (b : BalanceRecord),
      Cache.find cache asset = some b →
      (asset ∈ follows →
        Cache.find (handle_zero_balance follows quote_currency cache asset).1 asset =
          some { b with free := 0, locked := 0, total_amount := 0 }) ∧
      (asset ∉ follows →
        Cache.find (handle_zero_balance follows quote_currency cache asset).1 asset =
          none ∧
        Msg.removeHolding (asset ++ "/" ++ quote_currency) ∈
          (handle_zero_balance follows quote_currency cache asset).2) := by
  intro follows quote_currency cache asset b hb
  constructor
  · intro hf
    simp [handle_zero_balance, hb, hf, Cache.find_insert_self]
  · intro hnf
    simp [handle_zero_balance, hb, hnf, Cache.find_erase_self]

/-- Witness for C5: concretely, a followed `"BTC"` is zeroed in place
(price, average and PnL untouched), while a non-followed `"BTC"` is
evicted and the remove event emitted. -/
theorem C5_eviction_policy_witness :
    Cache.find (handle_zero_balance ["BTC"] "USDT" sampleBalances "BTC").1 "BTC" =
      some { sampleHolding with free := 0, locked := 0, total_amount := 0 } ∧
    Cache.find (handle_zero_balance [] "USDT" sampleBalances "BTC").1 "BTC" = none := by
  constructor
  · exact (C5_eviction_policy ["BTC"] "USDT" sampleBalances "BTC" sampleHolding
      rfl).1 (by simp)
  · exact ((C5_eviction_policy [] "USDT" sampleBalances "BTC" sampleHolding
      rfl).2 (by simp)).1

/-- Claim C1 counterexample: replaying the same terminal (`closed`) order
event with `cumulative_filled = 3` twice triggers a fill task both
times — the first application removes the cached record, so the second
computes its delta against an empty cache and schedules a second PnL
mutation with `tradeAmount = 3`, refuting "a second delta of 0 and no
second PnL mutation" for duplicate events in general. -/
theorem C1_counterexample :
    (update_order [] closedFill3Event).2.length = 1 ∧
    (update_order (update_order [] closedFill3Event).1 closedFill3Event).2.length = 1 ∧
    ∀ f ∈ (update_order (update_order [] closedFill3Event).1 closedFill3Event).2,
      f.tradeAmount = 3 := by
  refine ⟨?_, ?_, ?_⟩
  · simp [update_order, closedFill3Event, old_filled_of, Cache.find, Cache.erase, pyOr]
  · simp [update_order, closedFill3Event, old_filled_of, Cache.find, Cache.erase, pyOr]
  · intro f hf
    simp [update_order, closedFill3Event, old_filled_of, Cache.find, Cache.erase,
      pyOr] at hf
    simp [hf]

/-- Claim C1 (amended): for every order event applied through
`update_order`, the fill delta equals the event's cumulative filled
amount minus the cached filled amount for that order id (0 when no
record exists), and a cost-basis/PnL update task is scheduled iff that
delta is strictly positive; applying two updates with
`cumulative_filled = 3` then `3` again yields a second delta of 0 and
no second PnL mutation provided the first event's status leaves the
record cached (is not the terminal `closed`/`canceled`) — a replayed
terminal event recomputes its delta against the already-emptied cache
and triggers PnL again. -/
theorem C1_fill_delta_amended :
    (∀ (cache : Cache OrderRecord) (ev : OrderEvent) (order_id : String),
        ev.id = some order_id →
        (((update_order cache ev).2 ≠ []) ↔
          0 < ev.filled - old_filled_of cache order_id) ∧
        ∀ f ∈ (update_order cache ev).2,
          f.tradeAmount = ev.filled - old_filled_of cache order_id) ∧
    ((update_order [] openFill3Event).2.length = 1 ∧
      (update_order (update_order [] openFill3Event).1 openFill3Event).2 = []) := by
  constructor
  · intro cache ev order_id h
    constructor
    · by_cases hpos : 0 < ev.filled - old_filled_of cache order_id
      · simp [update_order, h, hpos]
      · simp [update_order, h, hpos]
    · intro f hf
      by_cases hpos : 0 < ev.filled - old_filled_of cache order_id
      · simp [update_order, h, hpos] at hf
        simp [hf]
      · simp [update_order, h, hpos] at hf
  · constructor
    · simp [update_order, openFill3Event, old_filled_of, Cache.find, Cache.insert, pyOr]
    · simp [update_order, openFill3Event, old_filled_of, Cache.find, Cache.insert, pyOr]

/-- Witness for C1 (amended): the universally quantified part applied to
the concrete open-status fill-3 event on an empty cache. -/
theorem C1_fill_delta_amended_witness :
    ((update_order [] openFill3Event).2 ≠ []) ↔
      0 < openFill3Event.filled - old_filled_of [] "1" :=
  (C1_fill_delta_amended.1 [] openFill3Event "1" rfl).1

/-- Claim C6 counterexample: an order event with the terminal status
`rejected` does not remove the cached record — `update_order` only
deletes on `closed`/`canceled`, so after applying a `rejected` event
the record is still present, refuting "filled, canceled, rejected, or
expired — applying it removes that order's record". -/
theorem C6_counterexample :
    (Cache.find (update_order [("1", sampleOpenOrder)] rejectedEvent).1 "1").isSome
      = true := by
  simp [update_order, rejectedEvent, old_filled_of, sampleOpenOrder, Cache.find,
    Cache.insert, pyOr]

/-- Claim C6 (amended): `update_order` removes the cached record exactly
for the statuses `closed` (filled) and `canceled`; `rejected` and
`expired` events are treated like non-terminal statuses and leave an
updated record in the cache.  In all cases the scheduled fill task is
computed from the record cached before any removal, so removal happens
after the fill delta is processed, never before. -/
theorem C6_terminal_removal_amended :
    ∀ (cache : Cache OrderRecord) (ev : OrderEvent) (order_id : String),
      ev.id = some order_id →
      ((ev.status = some "closed" ∨ ev.status = some "canceled") →
        Cache.find (update_order cache ev).1 order_id = none) ∧
      (¬(ev.status = some "closed" ∨ ev.status = some "canceled") →
        (Cache.find (update_order cache ev).1 order_id).isSome = true) ∧
      (∀ f ∈ (update_order cache ev).2,
        f.tradeAmount = ev.filled - old_filled_of cache order_id) := by
  intro cache ev order_id h
  refine ⟨?_, ?_, ?_⟩
  · intro hterm
    simp [update_order, h, hterm, Cache.find_erase_self]
  · intro hterm
    simp [update_order, h, hterm, Cache.find_insert_self]
  · intro f hf
    by_cases hpos : 0 < ev.filled - old_filled_of cache order_id
    · simp [update_order, h, hpos] at hf
      simp [hf]
    · simp [update_order, h, hpos] at hf

/-- Witness for C6 (amended): a concrete `closed` event removes the
cached record. -/
theorem C6_terminal_removal_amended_witness :
    Cache.find (update_order [("1", sampleOpenOrder)] closedFill3Event).1 "1" = none :=
  (C6_terminal_removal_amended [("1", sampleOpenOrder)] closedFill3Event "1"
    rfl).1 (Or.inl rfl)

/-- Claim C3 counterexample: (a) in the spec's own scenario
(`avg=100, total=1`, buy fill `1@200`) the new average is 150 but the
cached `total_amount` stays 1 — `update_average_price_on_buy` never
touches quantities, refuting "yields avg=150 and total=2"; (b) for a
cached non-`None` average of 0 (total 1), a buy fill `1@200` sets the
average to the fill price 200, not to the claimed formula's
`(1*0 + 1*200)/2 = 100`. -/
theorem C3_counterexample :
    ((Cache.find (update_average_price_on_buy sampleBalances "BTC" 1 200).1 "BTC").map
        (fun b => (b.avg_buy_price, b.total_amount)) = some (some 150, 1)) ∧
    ((Cache.find
          (update_average_price_on_buy [("BTC", sampleZeroAvgHolding)] "BTC" 1 200).1
          "BTC").map
        (fun b => b.avg_buy_price) = some (some 200)) := by
  constructor
  · simp [update_average_price_on_buy, sampleBalances, sampleHolding, Cache.find,
      Cache.insert]
    norm_num
  · simp [update_average_price_on_buy, sampleZeroAvgHolding, Cache.find, Cache.insert]

/-- Claim C3 (amended): a buy fill on a cached asset with `None` average
leaves it `None` (never seeded from the fill price); with a cached
average `a > 0`, total `> 0` and a positive fill amount, the new average
is `(old_total*a + filled*fill_price) / (old_total + filled)` (with a
non-positive cached average or total, the code falls back to the fill
price instead); the fill does not change `total_amount`, so the spec
scenario `avg=100, total=1`, buy `1@200` yields `avg=150` with `total`
still 1. -/
theorem C3_weighted_average_amended :
    (∀ (cache : Cache BalanceRecord) (asset : String) (b : BalanceRecord)
        (filled_amount average_price : ℚ), Cache.find cache asset = some b →
        (b.avg_buy_price = none →
          update_average_price_on_buy cache asset filled_amount average_price =
            (cache, [])) ∧
        (∀ a, b.avg_buy_price = some a → 0 < a → 0 < b.total_amount →
          0 < filled_amount →
          Cache.find
              (update_average_price_on_buy cache asset filled_amount average_price).1
              asset =
            some { b with
              avg_buy_price := some ((b.total_amount * a + filled_amount * average_price) / (b.total_amount + filled_amount)) }) ∧
        (∀ b', Cache.find
              (update_average_price_on_buy cache asset filled_amount average_price).1
              asset = some b' →
          b'.total_amount = b.total_amount)) ∧
    ((Cache.find (update_average_price_on_buy sampleBalances "BTC" 1 200).1 "BTC").map
        (fun b => (b.avg_buy_price, b.total_amount)) = some (some 150, 1)) := by
  constructor
  · intro cache asset b filled_amount average_price hb
    refine ⟨?_, ?_, ?_⟩
    · intro hnone
      simp [update_average_price_on_buy, hb, hnone]
    · intro a ha hapos htpos hfpos
      have h1 : ¬(a ≤ 0 ∨ b.total_amount ≤ 0) := by
        push_neg
        exact ⟨hapos, htpos⟩
      have h2 : 0 < b.total_amount + filled_amount := by linarith
      simp [update_average_price_on_buy, hb, ha, h1, h2, Cache.find_insert_self]
    · intro b' hb'
      cases havg : b.avg_buy_price with
      | none =>
        simp [update_average_price_on_buy, hb, havg] at hb'
        rw [hb']
      | some a =>
        simp only [update_average_price_on_buy, havg, hb,
          Cache.find_insert_self] at hb'
        injection hb' with h
        rw [← h]
  · simp [update_average_price_on_buy, sampleBalances, sampleHolding, Cache.find,
      Cache.insert]
    norm_num

/-- Witness for C3 (amended): the weighted-average rule applied to the
concrete `avg=100, total=1` holding with a buy fill `1@200`. -/
theorem C3_weighted_average_amended_witness :
    Cache.find (update_average_price_on_buy sampleBalances "BTC" 1 200).1 "BTC" =
      some { sampleHolding with
        avg_buy_price := some ((sampleHolding.total_amount * 100 + 1 * 200) / (sampleHolding.total_amount + 1)) } :=
  (C3_weighted_average_amended.1 sampleBalances "BTC" sampleHolding 1 200
    rfl).2.1 100 rfl (by norm_num) (by norm_num [sampleHolding]) (by norm_num)

/-- Claim C2 (confirmed): the cost-basis engine's start index is exactly
the most recent index from which accumulating `+filled` for sells and
`-filled` for buys brings the running total from the target holding to
zero (first conjunct: the signed tail sum cancels the target at the
found index and at no later index); on the history
`[buy 2@100, buy 1@130, sell 1@150]` with current holding 2 the forward
replay yields `average_buy_price = 110` and `realized_pnl = 40`; and
when no start index exists, `average_buy_price` is `None`, never zero. -/
theorem C2_cost_basis_engine :
    (∀ (ts : List Trade) (c : ℚ) (j : ℕ), findStartIndex ts c = some j →
        j < ts.length ∧ c + ((ts.drop j).map signedQty).sum = 0 ∧
        ∀ k, j < k → k < ts.length → c + ((ts.drop k).map signedQty).sum ≠ 0) ∧
    calculate_average_buy_price sampleTradeHistory "ETH" "USDT" 2 =
      (some 110, some 40) ∧
    (∀ (ts : List Trade) (asset quote_currency : String) (c : ℚ),
        asset ≠ quote_currency → 0 < c → ts ≠ [] →
        findStartIndex (sortByTimestamp ts) c = none →
        (calculate_average_buy_price ts asset quote_currency c).1 = none) := by
  refine ⟨findStartIndex_spec, ?_, ?_⟩
  · have hsort : sortByTimestamp sampleTradeHistory = sampleTradeHistory := by
      simp [sortByTimestamp, insortByTimestamp, sampleTradeHistory]
    have hstart : findStartIndex sampleTradeHistory 2 = some 0 := by
      simp [findStartIndex, findStartGo, sampleTradeHistory, signedQty]
      norm_num
    have hreplay : replayFills sampleTradeHistory ⟨0, 0, 0⟩ =
        ⟨220, 2, 40⟩ := by
      simp [replayFills, sampleTradeHistory]
      norm_num
    rw [calculate_average_buy_price,
      if_neg (by simp), if_neg (by simp [sampleTradeHistory])]
    simp only [hsort, hstart, List.drop_zero, hreplay]
    norm_num
  · intro ts asset quote_currency c h1 h2 h3 h4
    rw [calculate_average_buy_price,
      if_neg (by push_neg; exact ⟨h1, by linarith⟩), if_neg h3]
    simp only [h4]

/-- Witness for C2: the backward-walk characterisation applied to the
concrete sample history (start index 0), and the no-start-index branch
applied to a history that cannot reconstruct a holding of 2. -/
theorem C2_cost_basis_engine_witness :
    (2 : ℚ) + ((sampleTradeHistory.drop 0).map signedQty).sum = 0 ∧
    (calculate_average_buy_price irrecoverableHistory "BTC" "USDT" 2).1 = none := by
  constructor
  · exact (C2_cost_basis_engine.1 sampleTradeHistory 2 0
      (by simp [findStartIndex, findStartGo, sampleTradeHistory, signedQty]; norm_num)).2.1
  · exact C2_cost_basis_engine.2.2 irrecoverableHistory "BTC" "USDT" 2
      (by decide) (by norm_num) (by simp [irrecoverableHistory])
      (by simp [findStartIndex, findStartGo, sortByTimestamp, insortByTimestamp,
            irrecoverableHistory, signedQty]
          norm_num)

end CryptoDashboard
